import Mathlib

/-!
Verification of the message-drain core of the Sentinel chat relay.

The drain subsystem lives in `app/services/drain_service.py` (class
`DrainService`) and `app/routes/drain.py`.  A staging table `temp_outbox`
(`app/models/outbox.py`) holds relay records; `DrainService.drain_batch`
selects pending records (`delivered_at IS NULL AND deleted_at IS NULL`,
ordered by `queued_at` ascending, limited to the batch size), attempts one
HTTP delivery per record, and bulk-marks the successfully delivered ids.

The embedding below models the table as a `List TempOutbox` in row
(insertion) order.  Autoincrement primary keys mean that in every reachable
store the row order has strictly increasing `id`s; theorems that need this
take it as an explicit hypothesis.  The SQL `ORDER BY queued_at ASC` is
modelled as a stable sort (`List.insertionSort`) of the filtered rows in row
order.  Network effects are supplied by an oracle mapping each record to the
outcome of its delivery call.
-/

/-- A row of the `temp_outbox` table (`app/models/outbox.py`, class
`TempOutbox`).  Timestamps are modelled as naturals, the payload and string
columns verbatim as strings. -/
structure TempOutbox where
  id : Nat
  room_id : String
  sender_handle : String
  cipher_blob : String
  filter_version : Nat
  queued_at : Nat
  delivered_at : Option Nat
  deleted_at : Option Nat
deriving Repr, DecidableEq

/-- The pending predicate used by the select query and the status route:
`delivered_at IS NULL AND deleted_at IS NULL`. -/
def isPending (m : TempOutbox) : Bool :=
  m.delivered_at.isNone && m.deleted_at.isNone

/-- The rows matching the pending filter, in row order. -/
def pendingList (db : List TempOutbox) : List TempOutbox :=
  db.filter isPending

/-- The count returned by the `/drain/status` route (`app/routes/drain.py`,
`drain_status`). -/
def pendingCount (db : List TempOutbox) : Nat :=
  (pendingList db).length

/-- The sort key of the select query: `ORDER BY queued_at ASC`
(`drain_service.py` line 45). -/
def qLe (a b : TempOutbox) : Prop :=
  a.queued_at ≤ b.queued_at

instance : DecidableRel qLe := fun a b => Nat.decLe a.queued_at b.queued_at

/-- The select step of `drain_batch` (`drain_service.py` lines 39-48):
filter to pending rows, order by `queued_at` ascending (a stable sort of the
row order, which is what the engine's index scan yields), limit to
`batch_size`. -/
def selectPending (db : List TempOutbox) (batch_size : Nat) : List TempOutbox :=
  (List.insertionSort qLe (pendingList db)).take batch_size

/-- The bulk update of `drain_batch` (`drain_service.py` lines 74-81):
`UPDATE temp_outbox SET delivered_at = now WHERE id IN ids`.  Note the code
has no `delivered_at IS NULL` guard: every row whose id is listed is
updated. -/
def markDelivered (db : List TempOutbox) (ids : List Nat) (now : Nat) : List TempOutbox :=
  db.map (fun m => if ids.contains m.id then { m with delivered_at := some now } else m)

/-- Outcome of the HTTP POST inside `_deliver_to_primary`: either the
primary server answered with some status code, or the call raised (timeout,
connection error, ...). -/
inductive HttpOutcome where
  | response (status : Nat)
  | exn
deriving Repr, DecidableEq

/-- `DrainService._deliver_to_primary` (`drain_service.py` lines 90-118) as
a function of the HTTP outcome: it returns `response.status_code == 200`,
and its `except` clause turns any raised error into `False`. -/
def deliver_to_primary (o : HttpOutcome) : Bool :=
  match o with
  | .response status => status == 200
  | .exn => false

/-- What happens when the delivery loop body runs for one record: the call
to `_deliver_to_primary` returns with an HTTP outcome, or an unexpected
error is raised out of the call (caught by the loop's `except`). -/
inductive CallResult where
  | returns (o : HttpOutcome)
  | raises
deriving Repr, DecidableEq

/-- The delivery loop of `drain_batch` (`drain_service.py` lines 61-70):
each message lands in `delivered_ids` when the call returns `True`, and in
`failed_ids` when it returns `False` or raises.  Result:
`(delivered_ids, failed_ids)`, each in batch order. -/
def deliverLoop (call : TempOutbox → CallResult) : List TempOutbox → List Nat × List Nat
  | [] => ([], [])
  | m :: rest =>
    let acc := deliverLoop call rest
    match call m with
    | .returns o =>
      if deliver_to_primary o then (m.id :: acc.1, acc.2) else (acc.1, m.id :: acc.2)
    | .raises => (acc.1, m.id :: acc.2)

/-- The result dictionary of `drain_batch`. -/
structure DrainResult where
  processed : Nat
  delivered : Nat
  failed : Nat
deriving Repr, DecidableEq

/-- `DrainService.drain_batch` (`drain_service.py` lines 28-88), healthy
storage: select pending, return zeros if none, otherwise run the delivery
loop, bulk-mark the delivered ids (only when there are any), and report
the counts.  Returns the result together with the updated store. -/
def drain_batch (db : List TempOutbox) (batch_size : Nat)
    (call : TempOutbox → CallResult) (now : Nat) : DrainResult × List TempOutbox :=
  let pending_messages := selectPending db batch_size
  if pending_messages.isEmpty then
    (⟨0, 0, 0⟩, db)
  else
    let ids := deliverLoop call pending_messages
    let db' := if ids.1.isEmpty then db else markDelivered db ids.1 now
    (⟨pending_messages.length, ids.1.length, ids.2.length⟩, db')

/-- `drain_batch` in an environment where the storage layer may fail:
`selectOk = false` makes the select query raise, `updateOk = false` makes
the bulk update/commit raise (the transaction is not committed, so the
store is unchanged).  The raised error propagates out of `drain_batch`
uncaught, modelled as `Except.error`. -/
def drain_batch_run (selectOk updateOk : Bool) (db : List TempOutbox) (batch_size : Nat)
    (call : TempOutbox → CallResult) (now : Nat) :
    Except String DrainResult × List TempOutbox :=
  if !selectOk then (.error "StorageUnavailable", db)
  else
    let pending_messages := selectPending db batch_size
    if pending_messages.isEmpty then (.ok ⟨0, 0, 0⟩, db)
    else
      let ids := deliverLoop call pending_messages
      if ids.1.isEmpty then (.ok ⟨pending_messages.length, ids.1.length, ids.2.length⟩, db)
      else if !updateOk then (.error "StorageUnavailable", db)
      else (.ok ⟨pending_messages.length, ids.1.length, ids.2.length⟩, markDelivered db ids.1 now)

/-- Response of the `/drain/run` route. -/
inductive RouteResponse where
  | ok (success : Bool) (processed delivered failed : Nat)
  | httpError (status : Nat) (detail : String)
deriving Repr, DecidableEq

/-- The `/drain/run` handler `drain_messages` (`app/routes/drain.py` lines
26-44): on success it wraps the counts with `success: true`; any exception
escaping `drain_batch` becomes an HTTP 500 error response. -/
def drain_messages (selectOk updateOk : Bool) (db : List TempOutbox) (batch_size : Nat)
    (call : TempOutbox → CallResult) (now : Nat) : RouteResponse × List TempOutbox :=
  match drain_batch_run selectOk updateOk db batch_size call now with
  | (.ok r, db') => (.ok true r.processed r.delivered r.failed, db')
  | (.error e, db') => (.httpError 500 e, db')

/-- `true` iff the route answered without an HTTP error. -/
def isOkResponse : RouteResponse → Bool
  | .ok _ _ _ _ => true
  | .httpError _ _ => false

/-! ### Shared lemmas -/

theorem deliverLoop_length (call : TempOutbox → CallResult) (l : List TempOutbox) :
    (deliverLoop call l).1.length + (deliverLoop call l).2.length = l.length := by
  induction l with
  | nil => rfl
  | cons m rest ih =>
    simp only [deliverLoop]
    cases call m with
    | returns o =>
      by_cases h : deliver_to_primary o = true
      · simp [h, List.length_cons, ← ih]; omega
      · simp [h, List.length_cons, ← ih]; omega
    | raises => simp [List.length_cons, ← ih]; omega

theorem mem_deliverLoop_fst {call : TempOutbox → CallResult} {l : List TempOutbox} {i : Nat}
    (h : i ∈ (deliverLoop call l).1) : ∃ m ∈ l, m.id = i := by
  induction l with
  | nil => simp [deliverLoop] at h
  | cons m rest ih =>
    simp only [deliverLoop] at h
    cases hc : call m with
    | returns o =>
      rw [hc] at h
      by_cases hd : deliver_to_primary o = true
      · simp [hd] at h
        rcases h with h | h
        · exact ⟨m, List.mem_cons_self m rest, h.symm⟩
        · rcases ih h with ⟨m', hm', hid⟩
          exact ⟨m', List.mem_cons_of_mem m hm', hid⟩
      · simp [hd] at h
        rcases ih h with ⟨m', hm', hid⟩
        exact ⟨m', List.mem_cons_of_mem m hm', hid⟩
    | raises =>
      rw [hc] at h
      rcases ih h with ⟨m', hm', hid⟩
      exact ⟨m', List.mem_cons_of_mem m hm', hid⟩

theorem mem_selectPending {db : List TempOutbox} {n : Nat} {m : TempOutbox}
    (h : m ∈ selectPending db n) : m ∈ db ∧ isPending m = true := by
  have h1 : m ∈ List.insertionSort qLe (pendingList db) := List.mem_of_mem_take h
  have h2 : m ∈ pendingList db := (List.perm_insertionSort qLe (pendingList db)).mem_iff.mp h1
  exact ⟨List.mem_of_mem_filter h2, List.of_mem_filter h2⟩

theorem markDelivered_map_id (db : List TempOutbox) (ids : List Nat) (now : Nat) :
    (markDelivered db ids now).map TempOutbox.id = db.map TempOutbox.id := by
  unfold markDelivered
  rw [List.map_map]
  apply List.map_congr_left
  intro m _
  by_cases h : m.id ∈ ids <;> simp [h]

theorem drain_batch_map_id (db : List TempOutbox) (bs : Nat)
    (call : TempOutbox → CallResult) (now : Nat) :
    ((drain_batch db bs call now).2).map TempOutbox.id = db.map TempOutbox.id := by
  unfold drain_batch
  by_cases h : (selectPending db bs).isEmpty
  · simp [h]
  · by_cases h2 : (deliverLoop call (selectPending db bs)).1.isEmpty
    · simp [h, h2]
    · simp [h, h2, markDelivered_map_id]

theorem markDelivered_markDelivered (db : List TempOutbox) (ids : List Nat) (t t' : Nat) :
    markDelivered (markDelivered db ids t) ids t' = markDelivered db ids t' := by
  unfold markDelivered
  rw [List.map_map]
  apply List.map_congr_left
  intro m _
  by_cases h : m.id ∈ ids <;> simp [h]

theorem pendingCount_markDelivered_indep (db : List TempOutbox) (ids : List Nat) (t t' : Nat) :
    pendingCount (markDelivered db ids t) = pendingCount (markDelivered db ids t') := by
  unfold pendingCount pendingList markDelivered
  rw [List.filter_map, List.filter_map, List.length_map, List.length_map]
  congr 1
  apply List.filter_congr
  intro m _
  by_cases h : m.id ∈ ids <;> simp [h, isPending]

/-! ### Claim theorems -/

/-- C4: a single delivery attempt yields `delivered` if and only if the
primary service answered with the success status (HTTP 200, the code's
`response.status_code == 200`); every other response status, as well as a
timeout / connection error / any raised exception, yields `failed` for that
record. -/
theorem deliver_to_primary_success_iff (o : HttpOutcome) :
    deliver_to_primary o = true ↔ o = HttpOutcome.response 200 := by
  cases o with
  | response s => simp [deliver_to_primary]
  | exn => simp [deliver_to_primary]

/-- C4 witness: the theorem applied at a concrete outcome. -/
theorem deliver_to_primary_success_iff_witness :
    deliver_to_primary (HttpOutcome.response 404) = true ↔
      HttpOutcome.response 404 = HttpOutcome.response 200 :=
  deliver_to_primary_success_iff (HttpOutcome.response 404)

/-- C7: on a store with zero pending records, one drain cycle returns
`{processed: 0, delivered: 0, failed: 0}` and leaves the store unchanged
(no delivery attempt is made — the loop runs over the empty selection —
and no write happens). -/
theorem drain_batch_zero_pending (db : List TempOutbox) (bs : Nat)
    (call : TempOutbox → CallResult) (now : Nat) (h : pendingCount db = 0) :
    drain_batch db bs call now = (⟨0, 0, 0⟩, db) := by
  have hnil : pendingList db = [] := List.length_eq_zero.mp h
  unfold drain_batch selectPending
  simp [hnil]

/-- C7 witness: a store holding one delivered and one tombstoned record has
zero pending records, and the cycle is a no-op on it. -/
theorem drain_batch_zero_pending_witness :
    pendingCount [⟨1, "r", "a", "c", 1, 0, some 2, none⟩,
        ⟨2, "r", "a", "c", 1, 1, none, some 3⟩] = 0 ∧
    drain_batch [⟨1, "r", "a", "c", 1, 0, some 2, none⟩,
        ⟨2, "r", "a", "c", 1, 1, none, some 3⟩] 100 (fun _ => .raises) 9 =
      (⟨0, 0, 0⟩, [⟨1, "r", "a", "c", 1, 0, some 2, none⟩,
        ⟨2, "r", "a", "c", 1, 1, none, some 3⟩]) :=
  ⟨by decide, drain_batch_zero_pending _ 100 _ 9 (by decide)⟩

/-- C1 counterexample: the bulk update of `drain_batch` has no
`delivered_at IS NULL` guard, so an already-delivered id in the id set is
NOT left untouched: marking the same singleton id set a second time (the
code stamps each call with a fresh `datetime.utcnow()`) moves the record's
`delivered_at` from `some 5` to `some 10`, so the second invocation is not
a no-op on `delivered_at` values. -/
theorem markDelivered_not_idempotent_counterexample :
    (markDelivered (markDelivered [⟨1, "r", "a", "c", 1, 0, none, none⟩] [1] 5) [1] 10).map
        TempOutbox.delivered_at = [some 10] ∧
    (markDelivered [⟨1, "r", "a", "c", 1, 0, none, none⟩] [1] 5).map
        TempOutbox.delivered_at = [some 5] := by
  constructor <;> rfl

/-- C1 amended: the bulk-mark sets `delivered_at` on every listed id,
pending or not.  Invoking it a second time with the same id set and the
same timestamp changes nothing (idempotence holds only up to the
timestamp), and for any second timestamp the pending count is unchanged by
the repeat invocation. -/
theorem markDelivered_idempotent_same_timestamp (db : List TempOutbox)
    (ids : List Nat) (t t' : Nat) :
    markDelivered (markDelivered db ids t) ids t = markDelivered db ids t ∧
    pendingCount (markDelivered (markDelivered db ids t) ids t') =
      pendingCount (markDelivered db ids t) := by
  refine ⟨markDelivered_markDelivered db ids t t, ?_⟩
  rw [markDelivered_markDelivered db ids t t']
  exact pendingCount_markDelivered_indep db ids t' t

/-- Field-wise agreement on everything except `delivered_at`. -/
def frameEq (a b : TempOutbox) : Prop :=
  a.id = b.id ∧ a.room_id = b.room_id ∧ a.sender_handle = b.sender_handle ∧
  a.cipher_blob = b.cipher_blob ∧ a.filter_version = b.filter_version ∧
  a.queued_at = b.queued_at ∧ a.deleted_at = b.deleted_at

theorem forall₂_frameEq_markDelivered (db : List TempOutbox) (ids : List Nat) (t : Nat) :
    List.Forall₂ frameEq db (markDelivered db ids t) := by
  unfold markDelivered
  rw [List.forall₂_map_right_iff]
  refine List.forall₂_same.2 (fun m _ => ?_)
  by_cases h : m.id ∈ ids <;> simp [h, frameEq]

/-- C10: a drain cycle writes only the `delivered_at` column: every other
column of every row (`id`, `room_id`, `sender_handle`, `cipher_blob`,
`filter_version`, `queued_at`, `deleted_at`) is unchanged, and no row is
inserted or removed (the row count is preserved, row by row in order). -/
theorem drain_batch_frame (db : List TempOutbox) (bs : Nat)
    (call : TempOutbox → CallResult) (now : Nat) :
    List.Forall₂ frameEq db (drain_batch db bs call now).2 ∧
    ((drain_batch db bs call now).2).length = db.length := by
  have hrefl : List.Forall₂ frameEq db db :=
    List.forall₂_same.2 (fun m _ => ⟨rfl, rfl, rfl, rfl, rfl, rfl, rfl⟩)
  have h2 : List.Forall₂ frameEq db (drain_batch db bs call now).2 := by
    unfold drain_batch
    by_cases h : (selectPending db bs).isEmpty
    · simpa [h] using hrefl
    · by_cases hd : (deliverLoop call (selectPending db bs)).1.isEmpty
      · simpa [h, hd] using hrefl
      · simpa [h, hd] using forall₂_frameEq_markDelivered db
          (deliverLoop call (selectPending db bs)).1 now
  exact ⟨h2, h2.length_eq.symm⟩

/-- C5: every selected record is counted exactly once as delivered or
failed (`delivered + failed = processed`, `processed` = size of the
selection); and in the concrete two-record batch where record 1 delivers
and record 2 fails, the cycle reports `{processed: 2, delivered: 1,
failed: 1}`, after which the failed record is exactly the next cycle's
selection (the succeeded one is not reselected). -/
theorem drain_batch_counts :
    (∀ (db : List TempOutbox) (bs : Nat) (call : TempOutbox → CallResult) (now : Nat),
      (drain_batch db bs call now).1.processed = (selectPending db bs).length ∧
      (drain_batch db bs call now).1.delivered + (drain_batch db bs call now).1.failed =
        (drain_batch db bs call now).1.processed) ∧
    (drain_batch [⟨1, "r", "a", "c", 1, 0, none, none⟩, ⟨2, "r", "a", "c", 1, 1, none, none⟩]
        100
        (fun m => if m.id == 1 then .returns (.response 200) else .returns (.response 500))
        7).1 = ⟨2, 1, 1⟩ ∧
    (drain_batch [⟨1, "r", "a", "c", 1, 0, none, none⟩, ⟨2, "r", "a", "c", 1, 1, none, none⟩]
        100
        (fun m => if m.id == 1 then .returns (.response 200) else .returns (.response 500))
        7).2 =
      [⟨1, "r", "a", "c", 1, 0, some 7, none⟩, ⟨2, "r", "a", "c", 1, 1, none, none⟩] ∧
    selectPending
      (drain_batch [⟨1, "r", "a", "c", 1, 0, none, none⟩, ⟨2, "r", "a", "c", 1, 1, none, none⟩]
        100
        (fun m => if m.id == 1 then .returns (.response 200) else .returns (.response 500))
        7).2 100 = [⟨2, "r", "a", "c", 1, 1, none, none⟩] := by
  refine ⟨fun db bs call now => ?_, by decide, by decide, by decide⟩
  unfold drain_batch
  by_cases h : (selectPending db bs).isEmpty
  · simp [h, List.isEmpty_iff.mp h]
  · simp [h, deliverLoop_length]

/-- C6: a storage failure at the select step, or at the mark step when
there is something to mark, surfaces as an HTTP 500 error response from the
`/drain/run` route with the store unchanged (no partial write); while with
healthy storage the route never returns an error, whatever the per-record
delivery outcomes are (failures and raised per-record exceptions only show
up in the `failed` count, and every selected record is still processed). -/
theorem drain_messages_error_handling (db : List TempOutbox) (bs : Nat)
    (call : TempOutbox → CallResult) (now : Nat) (u : Bool) :
    drain_messages false u db bs call now = (.httpError 500 "StorageUnavailable", db) ∧
    (drain_messages true false db bs call now).2 = db ∧
    (drain_messages true false db bs call now).1 =
      (if (deliverLoop call (selectPending db bs)).1.isEmpty then
        RouteResponse.ok true (selectPending db bs).length
          (deliverLoop call (selectPending db bs)).1.length
          (deliverLoop call (selectPending db bs)).2.length
      else RouteResponse.httpError 500 "StorageUnavailable") ∧
    drain_messages true true db bs call now =
      (RouteResponse.ok true (selectPending db bs).length
          (deliverLoop call (selectPending db bs)).1.length
          (deliverLoop call (selectPending db bs)).2.length,
        (drain_batch db bs call now).2) := by
  refine ⟨rfl, ?_, ?_, ?_⟩
  · unfold drain_messages drain_batch_run
    by_cases h : (selectPending db bs).isEmpty
    · simp [h]
    · by_cases hd : (deliverLoop call (selectPending db bs)).1.isEmpty
      · simp [h, hd]
      · simp [h, hd]
  · unfold drain_messages drain_batch_run
    by_cases h : (selectPending db bs).isEmpty
    · simp [h, List.isEmpty_iff.mp h, deliverLoop]
    · by_cases hd : (deliverLoop call (selectPending db bs)).1.isEmpty
      · simp [h, hd]
      · simp [h, hd]
  · unfold drain_messages drain_batch_run drain_batch
    by_cases h : (selectPending db bs).isEmpty
    · simp [h, List.isEmpty_iff.mp h, deliverLoop]
    · by_cases hd : (deliverLoop call (selectPending db bs)).1.isEmpty
      · simp [h, hd]
      · simp [h, hd]

theorem forall₂_delivered_preserved_markDelivered (db : List TempOutbox)
    (hids : List.Pairwise (fun a b : TempOutbox => a.id ≠ b.id) db)
    (sel : List TempOutbox) (hsel : ∀ m ∈ sel, m ∈ db ∧ isPending m = true)
    (ids : List Nat) (hsub : ∀ i ∈ ids, ∃ m ∈ sel, m.id = i) (t : Nat) :
    List.Forall₂ (fun a b => ∀ u, a.delivered_at = some u → b.delivered_at = some u)
      db (markDelivered db ids t) := by
  unfold markDelivered
  rw [List.forall₂_map_right_iff]
  refine List.forall₂_same.2 (fun m hm => ?_)
  intro u hu
  by_cases h : m.id ∈ ids
  · exfalso
    rcases hsub m.id h with ⟨m', hm', hid⟩
    rcases hsel m' hm' with ⟨hm'db, hm'p⟩
    have hne : m ≠ m' := by
      intro he
      rw [← he] at hm'p
      simp [isPending, hu] at hm'p
    have := hids.forall (fun x y hxy => fun e => hxy e.symm) hm hm'db hne
    exact this hid.symm
  · simp [h, hu]

/-- C2: `delivered_at` is write-once across drain cycles: provided the
store's ids are pairwise distinct (the primary key), a cycle never clears
nor changes an already-set `delivered_at` (the bulk update only targets ids
that were selected as pending, i.e. rows with `delivered_at IS NULL`), and
the cycle preserves the row ids, so the hypothesis is maintained and the
statement covers every sequence of cycles. -/
theorem drain_batch_delivered_at_write_once (db : List TempOutbox) (bs : Nat)
    (call : TempOutbox → CallResult) (now : Nat)
    (hids : List.Pairwise (fun a b : TempOutbox => a.id ≠ b.id) db) :
    ((drain_batch db bs call now).2).map TempOutbox.id = db.map TempOutbox.id ∧
    List.Forall₂ (fun a b => ∀ u, a.delivered_at = some u → b.delivered_at = some u)
      db (drain_batch db bs call now).2 := by
  refine ⟨drain_batch_map_id db bs call now, ?_⟩
  have hrefl : List.Forall₂
      (fun a b : TempOutbox => ∀ u, a.delivered_at = some u → b.delivered_at = some u) db db :=
    List.forall₂_same.2 (fun m _ => fun u hu => hu)
  unfold drain_batch
  by_cases h : (selectPending db bs).isEmpty
  · simp only [h, if_true]
    exact hrefl
  · by_cases hd : (deliverLoop call (selectPending db bs)).1.isEmpty
    · simp only [h, hd, if_false, if_true, Bool.false_eq_true]
      exact hrefl
    · have := forall₂_delivered_preserved_markDelivered db hids (selectPending db bs)
        (fun m hm => mem_selectPending hm)
        (deliverLoop call (selectPending db bs)).1
        (fun i hi => mem_deliverLoop_fst hi) now
      simpa [h, hd] using this

/-- C2 witness: a store with one already-delivered and one pending record;
the cycle delivers the pending one and the delivered one keeps its
timestamp. -/
theorem drain_batch_delivered_at_write_once_witness :
    List.Pairwise (fun a b : TempOutbox => a.id ≠ b.id)
      [⟨1, "r", "a", "c", 1, 0, some 3, none⟩, ⟨2, "r", "a", "c", 1, 1, none, none⟩] ∧
    (((drain_batch [⟨1, "r", "a", "c", 1, 0, some 3, none⟩,
          ⟨2, "r", "a", "c", 1, 1, none, none⟩] 100
          (fun _ => .returns (.response 200)) 9).2).map TempOutbox.id =
        ([⟨1, "r", "a", "c", 1, 0, some 3, none⟩,
          ⟨2, "r", "a", "c", 1, 1, none, none⟩] : List TempOutbox).map TempOutbox.id ∧
      List.Forall₂ (fun a b : TempOutbox => ∀ u, a.delivered_at = some u → b.delivered_at = some u)
        [⟨1, "r", "a", "c", 1, 0, some 3, none⟩, ⟨2, "r", "a", "c", 1, 1, none, none⟩]
        (drain_batch [⟨1, "r", "a", "c", 1, 0, some 3, none⟩,
          ⟨2, "r", "a", "c", 1, 1, none, none⟩] 100
          (fun _ => .returns (.response 200)) 9).2) :=
  ⟨by decide,
    drain_batch_delivered_at_write_once _ 100 _ 9 (by decide)⟩

/-- Written from the spec's ordering clause "ordered by (queued_at
ascending, id ascending)": the lexicographic `≤` on the `(queued_at, id)`
key. -/
def lexLe (a b : TempOutbox) : Prop :=
  a.queued_at < b.queued_at ∨ (a.queued_at = b.queued_at ∧ a.id ≤ b.id)

instance : DecidableRel lexLe := fun a b => by unfold lexLe; exact inferInstance

instance : IsTotal TempOutbox qLe :=
  ⟨fun a b => Nat.le_total a.queued_at b.queued_at⟩

instance : IsTrans TempOutbox qLe :=
  ⟨fun _ _ _ hab hbc => Nat.le_trans hab hbc⟩

instance : IsTotal TempOutbox lexLe :=
  ⟨by intro a b; unfold lexLe; omega⟩

instance : IsTrans TempOutbox lexLe :=
  ⟨by intro a b c hab hbc; unfold lexLe at hab hbc ⊢; omega⟩

/-- The select step as the spec words it (comparison definition for the
refinement claim C3): pending rows fully sorted by the lexicographic
`(queued_at, id)` key, then limited. -/
def selectPendingSpec (db : List TempOutbox) (batch_size : Nat) : List TempOutbox :=
  (List.insertionSort lexLe (pendingList db)).take batch_size

/-- The select query of `drain_batch` (`drain_service.py` lines 39-48) read
nondeterministically: `ORDER BY queued_at ASC` constrains the result only up
to the relative order of rows with equal `queued_at` (MySQL leaves the tie
order to the query plan), so an admissible result of the query under `LIMIT
batch_size` is any `queued_at`-sorted permutation of the pending rows,
truncated.  The deterministic `selectPending` used operationally by
`drain_batch` realizes one admissible choice. -/
def admissibleSelect (db : List TempOutbox) (batch_size : Nat)
    (out : List TempOutbox) : Prop :=
  ∃ s : List TempOutbox, List.Perm s (pendingList db) ∧ List.Sorted qLe s ∧
    out = s.take batch_size

theorem pairwise_and {α : Type} {R S : α → α → Prop} :
    ∀ {l : List α}, List.Pairwise R l → List.Pairwise S l →
      List.Pairwise (fun a b => R a b ∧ S a b) l
  | [], _, _ => List.Pairwise.nil
  | a :: t, hr, hs => by
    rcases List.pairwise_cons.mp hr with ⟨hr1, hr2⟩
    rcases List.pairwise_cons.mp hs with ⟨hs1, hs2⟩
    exact List.pairwise_cons.mpr
      ⟨fun b hb => ⟨hr1 b hb, hs1 b hb⟩, pairwise_and hr2 hs2⟩

theorem eq_of_sorted_perm_distinct_q (l₁ l₂ : List TempOutbox)
    (hperm : List.Perm l₁ l₂) (h₁ : List.Sorted qLe l₁) (h₂ : List.Sorted qLe l₂)
    (hq : List.Pairwise (fun a b : TempOutbox => a.queued_at ≠ b.queued_at) l₂) :
    l₁ = l₂ := by
  have hq₁ : List.Pairwise (fun a b : TempOutbox => a.queued_at ≠ b.queued_at) l₁ :=
    (hperm.pairwise_iff (fun h e => h e.symm)).mpr hq
  have s₁ : List.Sorted (fun a b : TempOutbox => a.queued_at < b.queued_at ∨ a = b) l₁ :=
    (pairwise_and h₁ hq₁).imp (fun h => Or.inl (Nat.lt_of_le_of_ne h.1 h.2))
  have s₂ : List.Sorted (fun a b : TempOutbox => a.queued_at < b.queued_at ∨ a = b) l₂ :=
    (pairwise_and h₂ hq).imp (fun h => Or.inl (Nat.lt_of_le_of_ne h.1 h.2))
  haveI : IsAntisymm TempOutbox
      (fun a b : TempOutbox => a.queued_at < b.queued_at ∨ a = b) := by
    refine ⟨fun a b hab hba => ?_⟩
    rcases hab with hab | hab
    · rcases hba with hba | hba
      · exfalso
        omega
      · exact hba.symm
    · exact hab
  exact List.eq_of_perm_of_sorted hperm s₁ s₂

/-- C3 counterexample: with two pending rows both queued at time 5 (ids 1
and 2), the reversed order is an admissible result of `ORDER BY queued_at
ASC LIMIT 2` — the engine guarantees nothing about the tie order — yet it
differs from the `(queued_at ascending, id ascending)` sequence the claim
requires, so the equal-times clause of the claim is not a property of the
code. -/
theorem selectPending_tie_order_counterexample :
    admissibleSelect
      [⟨1, "r", "a", "c", 1, 5, none, none⟩, ⟨2, "r", "a", "c", 1, 5, none, none⟩] 2
      [⟨2, "r", "a", "c", 1, 5, none, none⟩, ⟨1, "r", "a", "c", 1, 5, none, none⟩] ∧
    [⟨2, "r", "a", "c", 1, 5, none, none⟩, ⟨1, "r", "a", "c", 1, 5, none, none⟩] ≠
      selectPendingSpec
        [⟨1, "r", "a", "c", 1, 5, none, none⟩, ⟨2, "r", "a", "c", 1, 5, none, none⟩] 2 := by
  refine ⟨⟨[⟨2, "r", "a", "c", 1, 5, none, none⟩, ⟨1, "r", "a", "c", 1, 5, none, none⟩],
    by decide, by decide, rfl⟩, by decide⟩

/-- C3 amended: every admissible result of the select step has at most
`batch_size` records, all pending, in `queued_at`-ascending order; the
operational `selectPending` is one admissible result; and whenever the
store's queue times are pairwise distinct — the only case the program text
determines — the result is exactly the pending records with the smallest
`(queued_at, id)` keys in ascending key order.  For tied queue times the
within-tie order (and, when the limit cuts a tie group, even the selected
set) is the engine's choice, not the code's. -/
theorem admissibleSelect_spec (db : List TempOutbox) (n : Nat) (out : List TempOutbox)
    (h : admissibleSelect db n out) :
    out.length ≤ n ∧
    (∀ m ∈ out, isPending m = true) ∧
    List.Sorted qLe out ∧
    admissibleSelect db n (selectPending db n) ∧
    (List.Pairwise (fun a b : TempOutbox => a.queued_at ≠ b.queued_at) db →
      out = selectPendingSpec db n) := by
  rcases h with ⟨s, hperm, hsort, hout⟩
  subst hout
  refine ⟨List.length_take_le n s, ?_, ?_, ?_, ?_⟩
  · intro m hm
    have hms : m ∈ s := List.mem_of_mem_take hm
    exact List.of_mem_filter (hperm.mem_iff.mp hms)
  · exact List.Pairwise.sublist (List.take_sublist n s) hsort
  · exact ⟨List.insertionSort qLe (pendingList db), List.perm_insertionSort qLe _,
      List.sorted_insertionSort qLe _, rfl⟩
  · intro hq
    have hqpend : List.Pairwise (fun a b : TempOutbox => a.queued_at ≠ b.queued_at)
        (pendingList db) :=
      List.Pairwise.sublist (List.filter_sublist db) hq
    have hlexq : List.Sorted qLe (List.insertionSort lexLe (pendingList db)) :=
      (List.sorted_insertionSort lexLe (pendingList db)).imp
        (fun hab => by unfold lexLe at hab; unfold qLe; omega)
    have hqlex : List.Pairwise (fun a b : TempOutbox => a.queued_at ≠ b.queued_at)
        (List.insertionSort lexLe (pendingList db)) :=
      ((List.perm_insertionSort lexLe (pendingList db)).pairwise_iff
        (fun h e => h e.symm)).mpr hqpend
    have hp2 : List.Perm s (List.insertionSort lexLe (pendingList db)) :=
      hperm.trans (List.perm_insertionSort lexLe (pendingList db)).symm
    have heq := eq_of_sorted_perm_distinct_q s
      (List.insertionSort lexLe (pendingList db)) hp2 hsort hlexq hqlex
    unfold selectPendingSpec
    rw [heq]

/-- C3 witness: two pending rows with distinct queue times; the identity
selection is admissible and the theorem applied to it yields the
lexicographic characterization. -/
theorem admissibleSelect_spec_witness :
    admissibleSelect
      [⟨1, "r", "a", "c", 1, 1, none, none⟩, ⟨2, "r", "a", "c", 1, 2, none, none⟩] 2
      [⟨1, "r", "a", "c", 1, 1, none, none⟩, ⟨2, "r", "a", "c", 1, 2, none, none⟩] ∧
    (([⟨1, "r", "a", "c", 1, 1, none, none⟩, ⟨2, "r", "a", "c", 1, 2, none, none⟩] :
        List TempOutbox).length ≤ 2 ∧
      (∀ m ∈ ([⟨1, "r", "a", "c", 1, 1, none, none⟩,
          ⟨2, "r", "a", "c", 1, 2, none, none⟩] : List TempOutbox),
        isPending m = true) ∧
      List.Sorted qLe [⟨1, "r", "a", "c", 1, 1, none, none⟩,
        ⟨2, "r", "a", "c", 1, 2, none, none⟩] ∧
      admissibleSelect
        [⟨1, "r", "a", "c", 1, 1, none, none⟩, ⟨2, "r", "a", "c", 1, 2, none, none⟩] 2
        (selectPending
          [⟨1, "r", "a", "c", 1, 1, none, none⟩, ⟨2, "r", "a", "c", 1, 2, none, none⟩] 2) ∧
      (List.Pairwise (fun a b : TempOutbox => a.queued_at ≠ b.queued_at)
          [⟨1, "r", "a", "c", 1, 1, none, none⟩, ⟨2, "r", "a", "c", 1, 2, none, none⟩] →
        [⟨1, "r", "a", "c", 1, 1, none, none⟩, ⟨2, "r", "a", "c", 1, 2, none, none⟩] =
          selectPendingSpec
            [⟨1, "r", "a", "c", 1, 1, none, none⟩,
              ⟨2, "r", "a", "c", 1, 2, none, none⟩] 2)) :=
  ⟨⟨[⟨1, "r", "a", "c", 1, 1, none, none⟩, ⟨2, "r", "a", "c", 1, 2, none, none⟩],
      by decide, by decide, rfl⟩,
    admissibleSelect_spec _ 2 _
      ⟨[⟨1, "r", "a", "c", 1, 1, none, none⟩, ⟨2, "r", "a", "c", 1, 2, none, none⟩],
        by decide, by decide, rfl⟩⟩

/-- 150 rows, ids 1..150, strictly increasing queue times, all pending. -/
def db150 : List TempOutbox :=
  (List.range 150).map (fun i => ⟨i + 1, "room", "s", "blob", 1, i, none, none⟩)

/-- Delivery oracle where the primary service accepts every record. -/
def callAll200 : TempOutbox → CallResult :=
  fun _ => .returns (.response 200)

/-- C8: from 150 pending records with batch size 100 and every delivery
succeeding, the first cycle reports `{100, 100, 0}` leaving 50 pending, the
second reports `{50, 50, 0}` leaving 0 pending, and a third on the drained
store reports `{0, 0, 0}`. -/
theorem drain_batch_150_scenario :
    (drain_batch db150 100 callAll200 1000).1 = ⟨100, 100, 0⟩ ∧
    pendingCount (drain_batch db150 100 callAll200 1000).2 = 50 ∧
    (drain_batch (drain_batch db150 100 callAll200 1000).2 100 callAll200 1001).1 =
      ⟨50, 50, 0⟩ ∧
    pendingCount
      (drain_batch (drain_batch db150 100 callAll200 1000).2 100 callAll200 1001).2 = 0 ∧
    (drain_batch
      (drain_batch (drain_batch db150 100 callAll200 1000).2 100 callAll200 1001).2
      100 callAll200 1002).1 = ⟨0, 0, 0⟩ := by
  refine ⟨?_, ?_, ?_, ?_, ?_⟩ <;> decide
